import Mathlib

/-!
Shallow embedding of the uclient example download client
(src/uclient-example.c): the request-lifecycle controller, the output
sink resolver, the certificate trust policy and the exit-code mapping,
together with proofs of the specified properties.

The transport collaborator (uclient/ustream) is modelled by the events
it delivers to the registered callbacks: header-done (with the response
status and whether a redirect could be followed), data-available (with
the successive chunks uclient_read would yield), end-of-stream, and
transport errors.  File-system behaviour of open(2) is modelled by an
environment telling which names exist and which opens fail for other
reasons (permissions and the like).
-/

namespace Uclient

/-- A file system model for open(2): which paths currently exist, and
which opens fail for reasons other than the O_EXCL existence check. -/
structure FS where
  fexists : String → Bool
  ioFail : String → Bool

/-- An open output destination: standard output or a named file. -/
inductive Sink where
  | stdout : Sink
  | file (name : String) : Sink
deriving DecidableEq, Repr

/-- Model of open(path, flags, 0644): fails when ioFail says so, when
O_CREAT is absent and the file does not exist, or when O_CREAT|O_EXCL is
given and the file already exists; otherwise yields the named file. -/
def sysOpen (fs : FS) (name : String) (creat excl : Bool) : Option Sink :=
  if fs.ioFail name then none
  else if !creat && !fs.fexists name then none
  else if creat && excl && fs.fexists name then none
  else some (Sink.file name)

/-- The length of the initial segment of the path free of the characters
in ";&", as computed by strcspn(path, ";&") in open_output_file. -/
def cutChunk (l : List Char) : List Char :=
  l.takeWhile (fun c => c ≠ ';' && c ≠ '&')

/-- The while loop of open_output_file: drop trailing slash characters
from the truncated path. -/
def dropTrailingSlashes (l : List Char) : List Char :=
  (l.reverse.dropWhile (fun c => c = '/')).reverse

/-- The backwards for loop of open_output_file: keep only the characters
after the last slash. -/
def lastSegment (l : List Char) : List Char :=
  (l.reverse.takeWhile (fun c => c ≠ '/')).reverse

/-- The filename derivation of open_output_file when no -O option was
given: truncate the URL path at the first ';' or '&', drop trailing
slashes, take the last path segment, and fall back to "index.html" when
nothing remains. -/
def derive_filename (path : String) : String :=
  let seg := lastSegment (dropTrailingSlashes (cutChunk path.data))
  if seg.length > 0 then String.mk seg else "index.html"

/-- open_output_file(path, create): with an explicit output_file the
string "-" selects standard output and any other name is opened without
O_EXCL (overwrite allowed); otherwise the filename derived from the URL
path is opened with O_EXCL whenever O_CREAT is used. -/
def open_output_file (fs : FS) (output_file : Option String)
    (path : String) (create : Bool) : Option Sink :=
  match output_file with
  | some of =>
    if of = "-" then some Sink.stdout
    else sysOpen fs of create false
  | none => sysOpen fs (derive_filename path) create create

/-- The transport error codes handled by handle_uclient_error. -/
inductive UclientErrorCode where
  | connect : UclientErrorCode
  | ssl_invalid_cert : UclientErrorCode
  | ssl_cn_mismatch : UclientErrorCode
  | other (n : Nat) : UclientErrorCode
deriving DecidableEq, Repr

/-- The startup configuration shared by all callbacks: the certificate
trust policy flag (verify), the quiet flag, the optional -O path and the
file-system environment. -/
structure Config where
  verify : Bool
  quiet : Bool
  output_file : Option String
  fs : FS

/-- The mutable process state touched by the callbacks: the static
redirect counter, the output file descriptor, the exit status error_ret
(together with a count of how many times it has been assigned), whether
uloop_end has been called, the bytes written to the sink, and the
diagnostics printed to stderr. -/
structure St where
  retries : Nat
  output_fd : Option Sink
  error_ret : Nat
  error_writes : Nat
  finished : Bool
  written : List Nat
  log : List String
deriving DecidableEq, Repr

/-- The initial process state. -/
def initSt : St :=
  { retries := 0, output_fd := none, error_ret := 0, error_writes := 0,
    finished := false, written := [], log := [] }

/-- Append a diagnostic line unless the quiet flag is set. -/
def logIf (quiet : Bool) (msg : String) (log : List String) : List String :=
  if quiet then log else log ++ [msg]

/-- request_done: close the output descriptor if open, disconnect and
end the event loop. -/
def request_done (st : St) : St :=
  { st with output_fd := none, finished := true }

/-- example_header_done: while fewer than 10 redirects have been taken
and the collaborator can follow a redirect, bump the counter and return;
otherwise reset the counter, dump the headers, and either resolve the
output sink (status 200 or 204, exit 3 on open failure) or finish with
exit 8. -/
def example_header_done (cfg : Config) (st : St) (status : Nat)
    (canRedirect : Bool) (location host : String) : St :=
  if st.retries < 10 && canRedirect then
    { st with retries := st.retries + 1,
              log := logIf cfg.quiet
                ("Redirected to " ++ location ++ " on " ++ host) st.log }
  else
    let st1 : St :=
      { st with retries := 0,
                log := logIf cfg.quiet ("Headers: " ++ toString status) st.log }
    if status = 204 || status = 200 then
      match open_output_file cfg.fs cfg.output_file location true with
      | some s => { st1 with output_fd := some s }
      | none =>
        let st2 : St :=
          { st1 with log := logIf cfg.quiet "Cannot open output file" st1.log,
                     error_ret := 3, error_writes := st1.error_writes + 1 }
        request_done st2
    else
      let st2 := request_done st1
      { st2 with error_ret := 8, error_writes := st2.error_writes + 1 }

/-- example_read_data: if no output descriptor is open, return at once;
otherwise repeatedly read chunks from the collaborator and write them to
the sink until a read yields no bytes. -/
def example_read_data (st : St) (chunks : List (List Nat)) : St :=
  match st.output_fd with
  | none => st
  | some _ =>
    { st with written := st.written ++ (chunks.takeWhile (fun c => c ≠ [])).flatten }

/-- example_eof: the body is complete, finish the session. -/
def example_eof (st : St) : St :=
  request_done st

/-- handle_uclient_error: classify the transport error, assign error_ret,
log the diagnostic, then either ignore the error (certificate errors with
validation disabled, resetting error_ret to 0) or finish the session. -/
def handle_uclient_error (cfg : Config) (st : St)
    (code : UclientErrorCode) : St :=
  let cls : String × Bool × Nat :=
    match code with
    | UclientErrorCode.connect => ("Connection failed", false, 4)
    | UclientErrorCode.ssl_invalid_cert =>
        ("Invalid SSL certificate", !cfg.verify, 5)
    | UclientErrorCode.ssl_cn_mismatch =>
        ("Server hostname does not match SSL certificate", !cfg.verify, 5)
    | UclientErrorCode.other _ => ("Unknown error", false, 1)
  let st1 : St :=
    { st with error_ret := cls.2.2, error_writes := st.error_writes + 1,
              log := logIf cfg.quiet ("Connection error: " ++ cls.1) st.log }
  if cls.2.1 then
    { st1 with error_ret := 0, error_writes := st1.error_writes + 1 }
  else request_done st1

/-- The events the collaborator delivers to the registered callbacks. -/
inductive Event where
  | header_done (status : Nat) (canRedirect : Bool) (location host : String) : Event
  | data_read (chunks : List (List Nat)) : Event
  | data_eof : Event
  | error (code : UclientErrorCode) : Event
deriving DecidableEq, Repr

/-- Dispatch one collaborator event to the matching callback; after
uloop_end no further callbacks are delivered. -/
def step (cfg : Config) (st : St) (e : Event) : St :=
  if st.finished then st
  else
    match e with
    | Event.header_done s r loc h => example_header_done cfg st s r loc h
    | Event.data_read cs => example_read_data st cs
    | Event.data_eof => example_eof st
    | Event.error c => handle_uclient_error cfg st c

/-- Run a sequence of collaborator events from a given state. -/
def run (cfg : Config) (st : St) (evs : List Event) : St :=
  evs.foldl (step cfg) st

/-- Run a whole session from the initial state. -/
def runSession (cfg : Config) (evs : List Event) : St :=
  run cfg initSt evs

/-- The process exit status: main returns error_ret. -/
def exitCode (cfg : Config) (evs : List Event) : Nat :=
  (runSession cfg evs).error_ret

/-- The command-line options recognised by main. -/
inductive CliOpt where
  | no_check_certificate : CliOpt
  | ca_certificate (path : String) : CliOpt
  | output (path : String) : CliOpt
  | quiet_opt : CliOpt
  | unknown : CliOpt
deriving DecidableEq, Repr

/-- The accumulated result of the getopt loop in main. -/
structure OptState where
  verify : Bool
  quiet : Bool
  output_file : Option String
  ca_files : List String
  bad : Bool
deriving Repr

/-- The initial option state: validation on, not quiet, no -O path. -/
def initOpts : OptState :=
  { verify := true, quiet := false, output_file := none,
    ca_files := [], bad := false }

/-- One iteration of the getopt loop in main. -/
def applyOpt (s : OptState) (o : CliOpt) : OptState :=
  match o with
  | CliOpt.no_check_certificate => { s with verify := false }
  | CliOpt.ca_certificate p => { s with ca_files := s.ca_files ++ [p] }
  | CliOpt.output p => { s with output_file := some p }
  | CliOpt.quiet_opt => { s with quiet := true }
  | CliOpt.unknown => { s with bad := true }

/-- The whole getopt loop of main. -/
def parseOpts (opts : List CliOpt) : OptState :=
  opts.foldl applyOpt initOpts

/-- What main does before entering the event loop. -/
inductive MainResult where
  | usage_error : MainResult
  | no_ssl_error : MainResult
  | run_session (cfg : Config) (url : String) : MainResult

/-- strncmp(url, "https", 5) == 0: the first five characters of the URL
spell "https". -/
def https_scheme (url : String) : Bool :=
  url.data.take 5 = "https".data

/-- The argument checking in main: an unknown option or an argument
count other than one prints usage and exits 1; an URL starting with
"https" while no SSL context could be loaded exits 1 via no_ssl before
any session is created; otherwise a session is started. -/
def main_start (fs : FS) (sslAvailable : Bool) (opts : List CliOpt)
    (args : List String) : MainResult :=
  let s := parseOpts opts
  if s.bad then MainResult.usage_error
  else
    match args with
    | [url] =>
      if https_scheme url && !sslAvailable then MainResult.no_ssl_error
      else MainResult.run_session
        { verify := s.verify, quiet := s.quiet,
          output_file := s.output_file, fs := fs } url
    | _ => MainResult.usage_error

/-- The process exit code of the paths of main decided before the event
loop runs; a started session exits with the error_ret accumulated over
the delivered events. -/
def mainExit (fs : FS) (sslAvailable : Bool) (opts : List CliOpt)
    (args : List String) (evs : List Event) : Nat :=
  match main_start fs sslAvailable opts args with
  | MainResult.usage_error => 1
  | MainResult.no_ssl_error => 1
  | MainResult.run_session cfg _ => exitCode cfg evs

end Uclient

namespace Uclient

/-! ## General lemmas about the event loop -/

/-- After uloop_end has been called no callback changes the state. -/
theorem step_of_finished (cfg : Config) (st : St) (e : Event)
    (h : st.finished = true) : step cfg st e = st := by
  simp [step, h]

/-- After uloop_end has been called no event sequence changes the state. -/
theorem run_of_finished (cfg : Config) (st : St) (evs : List Event)
    (h : st.finished = true) : run cfg st evs = st := by
  induction evs with
  | nil => rfl
  | cons e rest ih =>
    show run cfg (step cfg st e) rest = st
    rw [step_of_finished cfg st e h, ih]

/-- Running an appended event list runs the two pieces in order. -/
theorem run_append (cfg : Config) (st : St) (a b : List Event) :
    run cfg st (a ++ b) = run cfg (run cfg st a) b := by
  simp [run, List.foldl_append]

/-- A demonstration file system: no file exists and no open fails. -/
def demoFS : FS :=
  { fexists := fun _ => false, ioFail := fun _ => false }

/-- A demonstration configuration: validation on, not quiet, no -O. -/
def demoCfg : Config :=
  { verify := true, quiet := false, output_file := none, fs := demoFS }

end Uclient

namespace Uclient

/-! ## Claim C10: data with no open sink is a no-op -/

/-- Claim C10: if a data-available event is delivered while no output
sink is open, example_read_data returns immediately without reading or
writing anything and the whole state is unchanged. -/
theorem read_without_sink_noop (cfg : Config) (st : St)
    (chunks : List (List Nat)) (h : st.output_fd = none) :
    step cfg st (Event.data_read chunks) = st := by
  cases hf : st.finished with
  | true => exact step_of_finished cfg st _ hf
  | false => simp [step, hf, example_read_data, h]

/-- Witness for C10 at a concrete state and chunk list. -/
theorem read_without_sink_noop_witness :
    initSt.output_fd = none ∧
    step demoCfg initSt (Event.data_read [[1, 2], [3]]) = initSt :=
  ⟨by decide, read_without_sink_noop demoCfg initSt [[1, 2], [3]] (by decide)⟩

/-! ## Claim C6: explicit output path resolution -/

/-- Claim C6: with an explicit output path, "-" resolves to standard
output, and any other explicit path is opened with create-if-absent
semantics and no exclusivity check, so that a pre-existing file at that
path never makes the open fail (only an unrelated I/O failure can),
unlike the derived-filename case where an existing file is refused. -/
theorem explicit_sink_resolution (fs : FS) (p path dpath : String)
    (hp : p ≠ "-") (hio : fs.ioFail p = false) :
    open_output_file fs (some "-") path true = some Sink.stdout ∧
    open_output_file fs (some p) path true = some (Sink.file p) ∧
    (fs.fexists (derive_filename dpath) = true →
      open_output_file fs none dpath true = none ∨
      fs.ioFail (derive_filename dpath) = true) := by
  refine ⟨by simp [open_output_file], ?_, ?_⟩
  · simp [open_output_file, hp, sysOpen, hio]
  · intro hex
    left
    simp [open_output_file, sysOpen, hex]

/-- Witness for C6: an explicit path over a file system where the file
already exists still opens successfully, while the derived name fails. -/
theorem explicit_sink_resolution_witness :
    ("result.bin" : String) ≠ "-" ∧
    FS.ioFail ⟨fun _ => true, fun _ => false⟩ "result.bin" = false ∧
    (open_output_file ⟨fun _ => true, fun _ => false⟩ (some "-") "/a/b" true =
        some Sink.stdout ∧
      open_output_file ⟨fun _ => true, fun _ => false⟩ (some "result.bin") "/a/b" true =
        some (Sink.file "result.bin") ∧
      (FS.fexists ⟨fun _ => true, fun _ => false⟩ (derive_filename "/a/b") = true →
        open_output_file ⟨fun _ => true, fun _ => false⟩ none "/a/b" true = none ∨
        FS.ioFail ⟨fun _ => true, fun _ => false⟩ (derive_filename "/a/b") = true)) :=
  ⟨by decide, by decide,
    explicit_sink_resolution ⟨fun _ => true, fun _ => false⟩
      "result.bin" "/a/b" "/a/b" (by decide) (by decide)⟩

/-! ## Claim C7: encrypted scheme requires the SSL collaborator -/

/-- Claim C7: when the URL starts with "https" and the secure-transport
collaborator could not be loaded, main fails before any session is
created: the result is the no_ssl usage-style failure and the process
exit code is 1 whatever events might have followed. -/
theorem https_requires_ssl (fs : FS) (opts : List CliOpt) (url : String)
    (hbad : (parseOpts opts).bad = false)
    (h : https_scheme url = true) :
    main_start fs false opts [url] = MainResult.no_ssl_error ∧
    (∀ evs, mainExit fs false opts [url] evs = 1) := by
  have hm : main_start fs false opts [url] = MainResult.no_ssl_error := by
    simp [main_start, hbad, h]
  exact ⟨hm, fun evs => by simp [mainExit, hm]⟩

/-- Witness for C7 at a concrete option list and https URL. -/
theorem https_requires_ssl_witness :
    (parseOpts [CliOpt.quiet_opt]).bad = false ∧
    https_scheme "https://example.org/" = true ∧
    (main_start demoFS false [CliOpt.quiet_opt] ["https://example.org/"] =
        MainResult.no_ssl_error ∧
      (∀ evs, mainExit demoFS false [CliOpt.quiet_opt] ["https://example.org/"] evs = 1)) :=
  ⟨by decide, by decide,
    https_requires_ssl demoFS [CliOpt.quiet_opt] "https://example.org/"
      (by decide) (by decide)⟩

end Uclient

namespace Uclient

/-! ## Claim C3: the redirect hop bound -/

/-- One step never pushes the redirect counter past 10. -/
theorem step_retries_le (cfg : Config) (st : St) (e : Event)
    (h : st.retries ≤ 10) : (step cfg st e).retries ≤ 10 := by
  cases hf : st.finished with
  | true => rw [step_of_finished cfg st e hf]; exact h
  | false =>
    cases e with
    | header_done status canR loc host =>
      have hstep : step cfg st (Event.header_done status canR loc host) =
          example_header_done cfg st status canR loc host := by
        simp [step, hf]
      rw [hstep]
      unfold example_header_done
      split_ifs with h1 h2
      · simp only [Bool.and_eq_true, decide_eq_true_eq] at h1
        simp
        omega
      · cases hop : open_output_file cfg.fs cfg.output_file loc true with
        | some s => simp
        | none => simp [request_done]
      · simp [request_done]
    | data_read cs =>
      have hstep : step cfg st (Event.data_read cs) =
          example_read_data st cs := by simp [step, hf]
      rw [hstep]
      unfold example_read_data
      cases st.output_fd <;> simpa
    | data_eof =>
      have hstep : step cfg st Event.data_eof = example_eof st := by
        simp [step, hf]
      rw [hstep]
      simpa [example_eof, request_done]
    | error c =>
      have hstep : step cfg st (Event.error c) =
          handle_uclient_error cfg st c := by simp [step, hf]
      rw [hstep]
      unfold handle_uclient_error
      cases c <;> cases hv : cfg.verify <;>
        simp [hv, request_done] <;> simpa using h

/-- A whole run never pushes the redirect counter past 10. -/
theorem run_retries_le (cfg : Config) (st : St) (evs : List Event)
    (h : st.retries ≤ 10) : (run cfg st evs).retries ≤ 10 := by
  induction evs generalizing st with
  | nil => exact h
  | cons e rest ih => exact ih (step cfg st e) (step_retries_le cfg st e h)

/-- Claim C3: the redirect hop counter increases by exactly one on every
followed redirect, never exceeds 10 over any session, and once it has
reached the bound the next header-received event is handled exactly like
a non-redirect (final) response whatever its status — even when the
response is itself a followable redirect. -/
theorem redirect_bound (cfg : Config) :
    (∀ st status loc host, st.finished = false → st.retries < 10 →
      (step cfg st (Event.header_done status true loc host)).retries =
        st.retries + 1) ∧
    (∀ evs, (runSession cfg evs).retries ≤ 10) ∧
    (∀ st status canR loc host, 10 ≤ st.retries →
      step cfg st (Event.header_done status canR loc host) =
        step cfg st (Event.header_done status false loc host)) := by
  refine ⟨?_, ?_, ?_⟩
  · intro st status loc host hf hr
    simp [step, hf, example_header_done, hr]
  · intro evs
    exact run_retries_le cfg initSt evs (by decide)
  · intro st status canR loc host hb
    cases hf : st.finished with
    | true => rw [step_of_finished cfg st _ hf, step_of_finished cfg st _ hf]
    | false =>
      have hlt : ¬ st.retries < 10 := by omega
      simp [step, hf, example_header_done, hlt]

/-- Witness for C3: a followed redirect bumps the counter from 0 to 1,
the empty session respects the bound, and at a counter of 10 a
followable redirect response is handled like a final response. -/
theorem redirect_bound_witness :
    initSt.finished = false ∧ initSt.retries < 10 ∧
    (10 : Nat) ≤ 10 ∧
    ((step demoCfg initSt (Event.header_done 302 true "/r" "h")).retries =
        initSt.retries + 1 ∧
      (runSession demoCfg []).retries ≤ 10 ∧
      step demoCfg { initSt with retries := 10 }
          (Event.header_done 302 true "/r" "h") =
        step demoCfg { initSt with retries := 10 }
          (Event.header_done 302 false "/r" "h")) := by
  have t := redirect_bound demoCfg
  exact ⟨by decide, by decide, by decide,
    t.1 initSt 302 "/r" "h" (by decide) (by decide),
    t.2.1 [],
    t.2.2 { initSt with retries := 10 } 302 true "/r" "h" (by decide)⟩

/-! ## Claim C4: followed redirects never open a sink -/

/-- Claim C4: a header-received event that is followed as a redirect
(redirect status with a valid target, modelled by canRedirect = true,
while the hop count is below 10) leaves the output sink, the written
bytes, the exit status and the finished flag untouched: the sink-opening
branch is never reached, the counter is bumped and the collaborator goes
on with the re-issued request. -/
theorem redirect_no_sink (cfg : Config) (st : St) (status : Nat)
    (loc host : String) (hf : st.finished = false) (hr : st.retries < 10) :
    (step cfg st (Event.header_done status true loc host)).output_fd =
        st.output_fd ∧
    (step cfg st (Event.header_done status true loc host)).written =
        st.written ∧
    (step cfg st (Event.header_done status true loc host)).error_ret =
        st.error_ret ∧
    (step cfg st (Event.header_done status true loc host)).error_writes =
        st.error_writes ∧
    (step cfg st (Event.header_done status true loc host)).finished = false ∧
    (step cfg st (Event.header_done status true loc host)).retries =
        st.retries + 1 := by
  simp [step, hf, example_header_done, hr]

/-- Witness for C4 at the initial state and a concrete redirect. -/
theorem redirect_no_sink_witness :
    initSt.finished = false ∧ initSt.retries < 10 ∧
    ((step demoCfg initSt (Event.header_done 301 true "/next" "h")).output_fd =
        initSt.output_fd ∧
      (step demoCfg initSt (Event.header_done 301 true "/next" "h")).written =
        initSt.written ∧
      (step demoCfg initSt (Event.header_done 301 true "/next" "h")).error_ret =
        initSt.error_ret ∧
      (step demoCfg initSt (Event.header_done 301 true "/next" "h")).error_writes =
        initSt.error_writes ∧
      (step demoCfg initSt (Event.header_done 301 true "/next" "h")).finished =
        false ∧
      (step demoCfg initSt (Event.header_done 301 true "/next" "h")).retries =
        initSt.retries + 1) :=
  ⟨by decide, by decide,
    redirect_no_sink demoCfg initSt 301 "/next" "h" (by decide) (by decide)⟩

end Uclient

namespace Uclient

/-! ## Claim C5: the certificate trust policy -/

/-- The configuration main builds from the parsed options. -/
def configOf (opts : List CliOpt) (fs : FS) : Config :=
  { verify := (parseOpts opts).verify, quiet := (parseOpts opts).quiet,
    output_file := (parseOpts opts).output_file, fs := fs }

/-- The getopt loop turns validation off exactly when
--no-check-certificate occurs, whatever the initial verify value was on. -/
theorem foldOpts_verify (opts : List CliOpt) (s : OptState) :
    (opts.foldl applyOpt s).verify =
      (s.verify && !(decide (CliOpt.no_check_certificate ∈ opts))) := by
  induction opts generalizing s with
  | nil => simp
  | cons o rest ih =>
    rw [List.foldl_cons, ih (applyOpt s o)]
    cases o <;> simp [applyOpt, List.mem_cons]

/-- Certificate validation is disabled at startup exactly when the
--no-check-certificate option was given. -/
theorem parseOpts_verify (opts : List CliOpt) :
    ((parseOpts opts).verify = false ↔ CliOpt.no_check_certificate ∈ opts) := by
  rw [parseOpts, foldOpts_verify opts initOpts]
  simp [initOpts]

/-- Claim C5: a certificate-validity or hostname-mismatch transport
error is ignored exactly when certificate validation was disabled at
startup by --no-check-certificate: when ignored the exit status is 0 and
the session continues with its sink untouched; when not ignored the exit
status is 5 and the session finishes, closing any open sink. -/
theorem cert_trust_policy (opts : List CliOpt) (fs : FS) (st : St)
    (code : UclientErrorCode)
    (hc : code = UclientErrorCode.ssl_invalid_cert ∨
          code = UclientErrorCode.ssl_cn_mismatch)
    (hf : st.finished = false) :
    ((parseOpts opts).verify = false ↔ CliOpt.no_check_certificate ∈ opts) ∧
    ((parseOpts opts).verify = false →
      (step (configOf opts fs) st (Event.error code)).error_ret = 0 ∧
      (step (configOf opts fs) st (Event.error code)).finished = false ∧
      (step (configOf opts fs) st (Event.error code)).output_fd =
        st.output_fd) ∧
    ((parseOpts opts).verify = true →
      (step (configOf opts fs) st (Event.error code)).error_ret = 5 ∧
      (step (configOf opts fs) st (Event.error code)).finished = true ∧
      (step (configOf opts fs) st (Event.error code)).output_fd = none) := by
  refine ⟨parseOpts_verify opts, ?_, ?_⟩
  · intro hv
    rcases hc with hc | hc <;>
      simp [hc, step, hf, handle_uclient_error, configOf, hv, request_done]
  · intro hv
    rcases hc with hc | hc <;>
      simp [hc, step, hf, handle_uclient_error, configOf, hv, request_done]

/-- Witness for C5: with --no-check-certificate an invalid-certificate
error is ignored with exit status 0 and the session goes on. -/
theorem cert_trust_policy_witness :
    (UclientErrorCode.ssl_invalid_cert = UclientErrorCode.ssl_invalid_cert ∨
      UclientErrorCode.ssl_invalid_cert = UclientErrorCode.ssl_cn_mismatch) ∧
    initSt.finished = false ∧
    (((parseOpts [CliOpt.no_check_certificate]).verify = false ↔
        CliOpt.no_check_certificate ∈ [CliOpt.no_check_certificate]) ∧
      ((parseOpts [CliOpt.no_check_certificate]).verify = false →
        (step (configOf [CliOpt.no_check_certificate] demoFS) initSt
            (Event.error UclientErrorCode.ssl_invalid_cert)).error_ret = 0 ∧
        (step (configOf [CliOpt.no_check_certificate] demoFS) initSt
            (Event.error UclientErrorCode.ssl_invalid_cert)).finished = false ∧
        (step (configOf [CliOpt.no_check_certificate] demoFS) initSt
            (Event.error UclientErrorCode.ssl_invalid_cert)).output_fd =
          initSt.output_fd) ∧
      ((parseOpts [CliOpt.no_check_certificate]).verify = true →
        (step (configOf [CliOpt.no_check_certificate] demoFS) initSt
            (Event.error UclientErrorCode.ssl_invalid_cert)).error_ret = 5 ∧
        (step (configOf [CliOpt.no_check_certificate] demoFS) initSt
            (Event.error UclientErrorCode.ssl_invalid_cert)).finished = true ∧
        (step (configOf [CliOpt.no_check_certificate] demoFS) initSt
            (Event.error UclientErrorCode.ssl_invalid_cert)).output_fd = none)) :=
  ⟨Or.inl rfl, by decide,
    cert_trust_policy [CliOpt.no_check_certificate] demoFS initSt
      UclientErrorCode.ssl_invalid_cert (Or.inl rfl) (by decide)⟩

end Uclient

namespace Uclient

/-! ## Claim C1: the exit-code taxonomy -/

/-- A collaborator event on which the session suffers none of the
failures of the exit-code taxonomy: not a transport error, and any
header event either follows a redirect or carries a success status
whose sink opens. -/
def cleanEvent (cfg : Config) (st : St) (e : Event) : Bool :=
  match e with
  | Event.error _ => false
  | Event.header_done status canR loc _ =>
    (decide (st.retries < 10) && canR) ||
    ((status = 204 || status = 200) &&
      decide (open_output_file cfg.fs cfg.output_file loc true ≠ none))
  | Event.data_read _ => true
  | Event.data_eof => true

/-- A whole event sequence free of taxonomy failures. -/
def cleanRun (cfg : Config) : St → List Event → Bool
  | _, [] => true
  | st, e :: rest => cleanEvent cfg st e && cleanRun cfg (step cfg st e) rest

/-- A clean event keeps the exit status at 0. -/
theorem clean_step_error_ret (cfg : Config) (st : St) (e : Event)
    (hc : cleanEvent cfg st e = true) (h0 : st.error_ret = 0) :
    (step cfg st e).error_ret = 0 := by
  cases hf : st.finished with
  | true => rw [step_of_finished cfg st e hf]; exact h0
  | false =>
    cases e with
    | header_done status canR loc host =>
      by_cases h1 : (decide (st.retries < 10) && canR) = true
      · simp [step, hf, example_header_done, h1, h0]
      · have h2 : ((status = 204 || status = 200) &&
            decide (open_output_file cfg.fs cfg.output_file loc true ≠ none)) =
              true := by
          simp only [cleanEvent] at hc
          rw [Bool.or_eq_true] at hc
          rcases hc with hl | hr
          · exact absurd hl h1
          · exact hr
        rw [Bool.and_eq_true] at h2
        rcases h2 with ⟨hs, hop⟩
        rcases Option.ne_none_iff_exists.mp (of_decide_eq_true hop) with ⟨s, hsome⟩
        simp [step, hf, example_header_done, h1, hs, ← hsome, h0]
    | data_read cs =>
      have hstep : step cfg st (Event.data_read cs) =
          example_read_data st cs := by simp [step, hf]
      rw [hstep]
      unfold example_read_data
      cases st.output_fd <;> simpa
    | data_eof =>
      simp [step, hf, example_eof, request_done, h0]
    | error c =>
      simp [cleanEvent] at hc

/-- A clean event sequence keeps the exit status at 0. -/
theorem clean_run_error_ret (cfg : Config) (evs : List Event) :
    ∀ st, cleanRun cfg st evs = true → st.error_ret = 0 →
      (run cfg st evs).error_ret = 0 := by
  induction evs with
  | nil => intro st _ h0; exact h0
  | cons e rest ih =>
    intro st hc h0
    rw [cleanRun, Bool.and_eq_true] at hc
    exact ih (step cfg st e) hc.2 (clean_step_error_ret cfg st e hc.1 h0)

/-- Splitting a session at a terminal event: once the event has ended
the loop, the remaining events change nothing. -/
theorem runSession_split (cfg : Config) (pre post : List Event) (e : Event)
    (hfin : (step cfg (runSession cfg pre) e).finished = true) :
    runSession cfg (pre ++ e :: post) =
      step cfg (runSession cfg pre) e := by
  show run cfg initSt (pre ++ e :: post) = _
  rw [run_append]
  show run cfg (step cfg (run cfg initSt pre) e) post = _
  exact run_of_finished cfg _ post hfin

/-- Claim C1: the process exit status follows the fixed taxonomy.  From
any state a session can reach, a connection failure ends it with exit
code 4; a certificate or hostname failure with validation on ends it
with exit code 5; a success response whose sink cannot be opened ends it
with exit code 3; a terminal response whose status is neither 200 nor
204 ends it with exit code 8 and writes no body bytes; any other
transport error ends it with exit code 1; and a session with none of
these failures exits 0. -/
theorem exit_code_taxonomy (cfg : Config) (pre post : List Event)
    (h : (runSession cfg pre).finished = false) :
    (exitCode cfg (pre ++ Event.error UclientErrorCode.connect :: post) = 4) ∧
    (cfg.verify = true →
      exitCode cfg
        (pre ++ Event.error UclientErrorCode.ssl_invalid_cert :: post) = 5 ∧
      exitCode cfg
        (pre ++ Event.error UclientErrorCode.ssl_cn_mismatch :: post) = 5) ∧
    (∀ status loc host, (status = 204 ∨ status = 200) →
      open_output_file cfg.fs cfg.output_file loc true = none →
      exitCode cfg (pre ++ Event.header_done status false loc host :: post) = 3) ∧
    (∀ status canR loc host, status ≠ 204 → status ≠ 200 →
      ¬((runSession cfg pre).retries < 10 ∧ canR = true) →
      exitCode cfg (pre ++ Event.header_done status canR loc host :: post) = 8 ∧
      (runSession cfg
          (pre ++ Event.header_done status canR loc host :: post)).written =
        (runSession cfg pre).written) ∧
    (∀ n, exitCode cfg
      (pre ++ Event.error (UclientErrorCode.other n) :: post) = 1) ∧
    (∀ evs, cleanRun cfg initSt evs = true → exitCode cfg evs = 0) := by
  refine ⟨?_, ?_, ?_, ?_, ?_, ?_⟩
  · have hs : (step cfg (runSession cfg pre)
        (Event.error UclientErrorCode.connect)).error_ret = 4 ∧
        (step cfg (runSession cfg pre)
          (Event.error UclientErrorCode.connect)).finished = true := by
      simp [step, h, handle_uclient_error, request_done]
    rw [exitCode, runSession_split cfg pre post _ hs.2]
    exact hs.1
  · intro hv
    constructor
    · have hs : (step cfg (runSession cfg pre)
          (Event.error UclientErrorCode.ssl_invalid_cert)).error_ret = 5 ∧
          (step cfg (runSession cfg pre)
            (Event.error UclientErrorCode.ssl_invalid_cert)).finished = true := by
        simp [step, h, handle_uclient_error, request_done, hv]
      rw [exitCode, runSession_split cfg pre post _ hs.2]
      exact hs.1
    · have hs : (step cfg (runSession cfg pre)
          (Event.error UclientErrorCode.ssl_cn_mismatch)).error_ret = 5 ∧
          (step cfg (runSession cfg pre)
            (Event.error UclientErrorCode.ssl_cn_mismatch)).finished = true := by
        simp [step, h, handle_uclient_error, request_done, hv]
      rw [exitCode, runSession_split cfg pre post _ hs.2]
      exact hs.1
  · intro status loc host hsucc hop
    have hs : (step cfg (runSession cfg pre)
        (Event.header_done status false loc host)).error_ret = 3 ∧
        (step cfg (runSession cfg pre)
          (Event.header_done status false loc host)).finished = true := by
      rcases hsucc with h4 | h4 <;>
        simp [step, h, example_header_done, h4, hop, request_done]
    rw [exitCode, runSession_split cfg pre post _ hs.2]
    exact hs.1
  · intro status canR loc host hn4 hn0 hnr
    have hcond : (decide ((runSession cfg pre).retries < 10) && canR) = false := by
      cases hc : canR with
      | false => simp
      | true =>
        have hlt : ¬ (runSession cfg pre).retries < 10 := fun hlt =>
          hnr ⟨hlt, hc⟩
        simp [hlt]
    have hs : (step cfg (runSession cfg pre)
        (Event.header_done status canR loc host)).error_ret = 8 ∧
        (step cfg (runSession cfg pre)
          (Event.header_done status canR loc host)).finished = true ∧
        (step cfg (runSession cfg pre)
          (Event.header_done status canR loc host)).written =
          (runSession cfg pre).written := by
      simp [step, h, example_header_done, hcond, hn4, hn0, request_done]
    refine ⟨?_, ?_⟩
    · rw [exitCode, runSession_split cfg pre post _ hs.2.1]
      exact hs.1
    · rw [runSession_split cfg pre post _ hs.2.1]
      exact hs.2.2
  · intro n
    have hs : (step cfg (runSession cfg pre)
        (Event.error (UclientErrorCode.other n))).error_ret = 1 ∧
        (step cfg (runSession cfg pre)
          (Event.error (UclientErrorCode.other n))).finished = true := by
      simp [step, h, handle_uclient_error, request_done]
    rw [exitCode, runSession_split cfg pre post _ hs.2]
    exact hs.1
  · intro evs hc
    exact clean_run_error_ret cfg evs initSt hc (by decide)

end Uclient

namespace Uclient

/-- Witness for C1: the taxonomy applied to the empty history with no
trailing events under the demonstration configuration. -/
theorem exit_code_taxonomy_witness :
    (runSession demoCfg []).finished = false ∧
    ((exitCode demoCfg ([] ++ Event.error UclientErrorCode.connect :: []) = 4) ∧
      (demoCfg.verify = true →
        exitCode demoCfg
          ([] ++ Event.error UclientErrorCode.ssl_invalid_cert :: []) = 5 ∧
        exitCode demoCfg
          ([] ++ Event.error UclientErrorCode.ssl_cn_mismatch :: []) = 5) ∧
      (∀ status loc host, (status = 204 ∨ status = 200) →
        open_output_file demoCfg.fs demoCfg.output_file loc true = none →
        exitCode demoCfg
          ([] ++ Event.header_done status false loc host :: []) = 3) ∧
      (∀ status canR loc host, status ≠ 204 → status ≠ 200 →
        ¬((runSession demoCfg []).retries < 10 ∧ canR = true) →
        exitCode demoCfg
          ([] ++ Event.header_done status canR loc host :: []) = 8 ∧
        (runSession demoCfg
            ([] ++ Event.header_done status canR loc host :: [])).written =
          (runSession demoCfg []).written) ∧
      (∀ n, exitCode demoCfg
        ([] ++ Event.error (UclientErrorCode.other n) :: []) = 1) ∧
      (∀ evs, cleanRun demoCfg initSt evs = true →
        exitCode demoCfg evs = 0)) :=
  ⟨by decide, exit_code_taxonomy demoCfg [] [] (by decide)⟩

/-! ## Claim C8: how often the exit status is assigned -/

/-- A certificate error delivered while the session is live and
validation is disabled: exactly the events handle_uclient_error
ignores, each assigning error_ret twice (5 then 0). -/
def ignoredCertEvent (cfg : Config) (st : St) (e : Event) : Bool :=
  match e with
  | Event.error UclientErrorCode.ssl_invalid_cert => !st.finished && !cfg.verify
  | Event.error UclientErrorCode.ssl_cn_mismatch => !st.finished && !cfg.verify
  | _ => false

/-- How many ignored certificate errors a run handles. -/
def ignoredCertCount (cfg : Config) : St → List Event → Nat
  | _, [] => 0
  | st, e :: rest =>
    (if ignoredCertEvent cfg st e then 1 else 0) +
      ignoredCertCount cfg (step cfg st e) rest

/-- The write-counting invariant with budget n ignored certificate
errors so far: a live session has assigned error_ret at most twice per
ignored certificate error, a finished one at most once more, and
error_ret still holds the default 0 until the first assignment. -/
def writeInv (st : St) (n : Nat) : Prop :=
  (st.finished = false → st.error_writes ≤ 2 * n) ∧
  (st.finished = true → st.error_writes ≤ 2 * n + 1) ∧
  (st.error_writes = 0 → st.error_ret = 0)

/-- Every callback preserves the write-counting invariant; the budget
grows only on an ignored certificate error. -/
theorem step_write_inv (cfg : Config) (st : St) (e : Event) (n : Nat)
    (h : writeInv st n) :
    writeInv (step cfg st e)
      (n + (if ignoredCertEvent cfg st e then 1 else 0)) := by
  obtain ⟨h1, h2, h3⟩ := h
  cases hf : st.finished with
  | true =>
    have hi : ignoredCertEvent cfg st e = false := by
      cases e with
      | header_done status canR loc host => rfl
      | data_read cs => rfl
      | data_eof => rfl
      | error c => cases c <;> simp [ignoredCertEvent, hf]
    rw [step_of_finished cfg st e hf]
    simpa [hi] using ⟨h1, h2, h3⟩
  | false =>
    have hw : st.error_writes ≤ 2 * n := h1 hf
    cases e with
    | header_done status canR loc host =>
      have hi : ignoredCertEvent cfg st
          (Event.header_done status canR loc host) = false := rfl
      have hstep : step cfg st (Event.header_done status canR loc host) =
          example_header_done cfg st status canR loc host := by
        simp [step, hf]
      have key : writeInv
          (example_header_done cfg st status canR loc host) n := by
        unfold example_header_done
        split_ifs with hA hB
        · exact ⟨fun _ => hw, fun _ => hw.trans (Nat.le_succ _), h3⟩
        · cases hop : open_output_file cfg.fs cfg.output_file loc true with
          | some s => exact ⟨fun _ => hw, fun _ => hw.trans (Nat.le_succ _), h3⟩
          | none =>
            refine ⟨fun hff => ?_, fun _ => ?_, fun hz => ?_⟩
            · simp [request_done] at hff
            · simp [request_done]; omega
            · simp [request_done] at hz
        · refine ⟨fun hff => ?_, fun _ => ?_, fun hz => ?_⟩
          · simp [request_done] at hff
          · simp [request_done]; omega
          · simp [request_done] at hz
      simpa [hstep, hi] using key
    | data_read cs =>
      have hi : ignoredCertEvent cfg st (Event.data_read cs) = false := rfl
      have hstep : step cfg st (Event.data_read cs) =
          example_read_data st cs := by simp [step, hf]
      have key : writeInv (example_read_data st cs) n := by
        unfold example_read_data
        cases st.output_fd with
        | none => exact ⟨h1, h2, h3⟩
        | some s => exact ⟨fun _ => hw, fun _ => hw.trans (Nat.le_succ _), h3⟩
      simpa [hstep, hi] using key
    | data_eof =>
      have hi : ignoredCertEvent cfg st Event.data_eof = false := rfl
      have hstep : step cfg st Event.data_eof = example_eof st := by
        simp [step, hf]
      have key : writeInv (example_eof st) n := by
        unfold example_eof
        exact ⟨fun hff => by simp [request_done] at hff,
          fun _ => hw.trans (Nat.le_succ _), h3⟩
      simpa [hstep, hi] using key
    | error c =>
      have hstep : step cfg st (Event.error c) =
          handle_uclient_error cfg st c := by simp [step, hf]
      cases c with
      | connect =>
        have hi : ignoredCertEvent cfg st
            (Event.error UclientErrorCode.connect) = false := rfl
        have key : writeInv
            (handle_uclient_error cfg st UclientErrorCode.connect) n := by
          unfold handle_uclient_error
          refine ⟨fun hff => ?_, fun _ => ?_, fun hz => ?_⟩
          · simp [request_done] at hff
          · simp [request_done]; omega
          · simp [request_done] at hz
        simpa [hstep, hi] using key
      | other m =>
        have hi : ignoredCertEvent cfg st
            (Event.error (UclientErrorCode.other m)) = false := rfl
        have key : writeInv
            (handle_uclient_error cfg st (UclientErrorCode.other m)) n := by
          unfold handle_uclient_error
          refine ⟨fun hff => ?_, fun _ => ?_, fun hz => ?_⟩
          · simp [request_done] at hff
          · simp [request_done]; omega
          · simp [request_done] at hz
        simpa [hstep, hi] using key
      | ssl_invalid_cert =>
        cases hv : cfg.verify with
        | true =>
          have hi : ignoredCertEvent cfg st
              (Event.error UclientErrorCode.ssl_invalid_cert) = false := by
            simp [ignoredCertEvent, hv]
          have key : writeInv (handle_uclient_error cfg st
              UclientErrorCode.ssl_invalid_cert) n := by
            unfold handle_uclient_error
            refine ⟨fun hff => ?_, fun _ => ?_, fun hz => ?_⟩
            · simp [request_done, hv] at hff
            · simp [request_done, hv]; omega
            · simp [request_done, hv] at hz
          simpa [hstep, hi] using key
        | false =>
          have hi : ignoredCertEvent cfg st
              (Event.error UclientErrorCode.ssl_invalid_cert) = true := by
            simp [ignoredCertEvent, hv, hf]
          have key : writeInv (handle_uclient_error cfg st
              UclientErrorCode.ssl_invalid_cert) (n + 1) := by
            unfold handle_uclient_error
            refine ⟨fun _ => ?_, fun hff => ?_, fun _ => ?_⟩
            · simp [hv]; omega
            · simp [hv, hf] at hff
            · simp [hv]
          simpa [hstep, hi] using key
      | ssl_cn_mismatch =>
        cases hv : cfg.verify with
        | true =>
          have hi : ignoredCertEvent cfg st
              (Event.error UclientErrorCode.ssl_cn_mismatch) = false := by
            simp [ignoredCertEvent, hv]
          have key : writeInv (handle_uclient_error cfg st
              UclientErrorCode.ssl_cn_mismatch) n := by
            unfold handle_uclient_error
            refine ⟨fun hff => ?_, fun _ => ?_, fun hz => ?_⟩
            · simp [request_done, hv] at hff
            · simp [request_done, hv]; omega
            · simp [request_done, hv] at hz
          simpa [hstep, hi] using key
        | false =>
          have hi : ignoredCertEvent cfg st
              (Event.error UclientErrorCode.ssl_cn_mismatch) = true := by
            simp [ignoredCertEvent, hv, hf]
          have key : writeInv (handle_uclient_error cfg st
              UclientErrorCode.ssl_cn_mismatch) (n + 1) := by
            unfold handle_uclient_error
            refine ⟨fun _ => ?_, fun hff => ?_, fun _ => ?_⟩
            · simp [hv]; omega
            · simp [hv, hf] at hff
            · simp [hv]
          simpa [hstep, hi] using key

/-- Whole runs preserve the write-counting invariant, the budget
growing by the number of ignored certificate errors handled. -/
theorem run_write_inv (cfg : Config) (evs : List Event) :
    ∀ st n, writeInv st n →
      writeInv (run cfg st evs) (n + ignoredCertCount cfg st evs) := by
  induction evs with
  | nil =>
    intro st n h
    simpa [ignoredCertCount] using h
  | cons e rest ih =>
    intro st n h
    have h2 := ih (step cfg st e)
      (n + (if ignoredCertEvent cfg st e then 1 else 0))
      (step_write_inv cfg st e n h)
    have harr : n + ignoredCertCount cfg st (e :: rest) =
        n + (if ignoredCertEvent cfg st e then 1 else 0) +
          ignoredCertCount cfg (step cfg st e) rest := by
      simp [ignoredCertCount, Nat.add_assoc]
    rw [show run cfg st (e :: rest) = run cfg (step cfg st e) rest from rfl,
      harr]
    exact h2

/-- The configuration of a run started with --no-check-certificate and
-q and no -O option. -/
def noVerifyCfg : Config :=
  { verify := false, quiet := true, output_file := none, fs := demoFS }

/-- The events of a session with one ignored certificate error followed
by a normal download. -/
def ignoredCertTrace : List Event :=
  [Event.error UclientErrorCode.ssl_invalid_cert,
   Event.header_done 200 false "/f" "h",
   Event.data_eof]

/-- Counterexample to claim C8: with --no-check-certificate, a session
that sees an ignored certificate error and then completes normally
writes error_ret twice (5, then 0) before the process exits with 0. -/
theorem error_ret_double_write :
    (runSession noVerifyCfg ignoredCertTrace).error_writes = 2 ∧
    (runSession noVerifyCfg ignoredCertTrace).finished = true ∧
    exitCode noVerifyCfg ignoredCertTrace = 0 := by
  refine ⟨by decide, by decide, by decide⟩

/-- Claim C8 (amended): error_ret defaults to 0, and along every run it
is assigned at most 2k + 1 times where k counts the ignored certificate
errors — so on any terminal path on which no certificate error is
ignored, whatever the value of the validation flag, it is assigned at
most once, and only the ignored-certificate path (which assigns 5 then
0 in one handler invocation) ever accounts for further assignments. -/
theorem error_ret_single_write (cfg : Config) (evs : List Event) :
    (runSession cfg evs).error_writes ≤
      2 * ignoredCertCount cfg initSt evs + 1 ∧
    (ignoredCertCount cfg initSt evs = 0 →
      (runSession cfg evs).error_writes ≤ 1) ∧
    ((runSession cfg evs).error_writes = 0 →
      (runSession cfg evs).error_ret = 0) := by
  have h := run_write_inv cfg evs initSt 0
    (by refine ⟨fun _ => ?_, fun _ => ?_, fun _ => ?_⟩ <;> decide)
  rw [Nat.zero_add] at h
  obtain ⟨g1, g2, g3⟩ := h
  have hrs : runSession cfg evs = run cfg initSt evs := rfl
  refine ⟨?_, ?_, ?_⟩
  · rw [hrs]
    cases hfin : (run cfg initSt evs).finished with
    | false => exact (g1 hfin).trans (Nat.le_succ _)
    | true => exact g2 hfin
  · intro hc
    rw [hrs]
    cases hfin : (run cfg initSt evs).finished with
    | false => have := g1 hfin; omega
    | true => have := g2 hfin; omega
  · intro hz
    rw [hrs]
    exact g3 (by rw [hrs] at hz; exact hz)

/-- Witness for the amended C8 on a concrete failing session with no
ignored certificate error and validation off. -/
theorem error_ret_single_write_witness :
    ignoredCertCount noVerifyCfg initSt
      [Event.error UclientErrorCode.connect] = 0 ∧
    ((runSession noVerifyCfg
        [Event.error UclientErrorCode.connect]).error_writes ≤
      2 * ignoredCertCount noVerifyCfg initSt
        [Event.error UclientErrorCode.connect] + 1 ∧
    (ignoredCertCount noVerifyCfg initSt
        [Event.error UclientErrorCode.connect] = 0 →
      (runSession noVerifyCfg
        [Event.error UclientErrorCode.connect]).error_writes ≤ 1) ∧
    ((runSession noVerifyCfg
        [Event.error UclientErrorCode.connect]).error_writes = 0 →
      (runSession noVerifyCfg
        [Event.error UclientErrorCode.connect]).error_ret = 0)) :=
  ⟨by decide,
    error_ret_single_write noVerifyCfg [Event.error UclientErrorCode.connect]⟩

end Uclient

namespace Uclient

/-! ## Claim C9: the quiet flag only affects diagnostics -/

/-- Two states that agree on everything except the diagnostics log. -/
def sameCore (a b : St) : Prop :=
  a.retries = b.retries ∧ a.output_fd = b.output_fd ∧
  a.error_ret = b.error_ret ∧ a.error_writes = b.error_writes ∧
  a.finished = b.finished ∧ a.written = b.written

/-- One event keeps two runs differing only in the quiet flag (and the
log so far) in agreement on everything except the log. -/
theorem step_sameCore (v : Bool) (ofile : Option String) (fs : FS)
    (q1 q2 : Bool) (e : Event) (a b : St) (h : sameCore a b) :
    sameCore (step ⟨v, q1, ofile, fs⟩ a e) (step ⟨v, q2, ofile, fs⟩ b e) := by
  obtain ⟨h1, h2, h3, h4, h5, h6⟩ := h
  cases hf : a.finished with
  | true =>
    rw [step_of_finished _ a e hf, step_of_finished _ b e (h5.symm.trans hf)]
    exact ⟨h1, h2, h3, h4, h5, h6⟩
  | false =>
    have hbf : b.finished = false := h5.symm.trans hf
    cases e with
    | header_done status canR loc host =>
      have ea : step ⟨v, q1, ofile, fs⟩ a (Event.header_done status canR loc host) =
          example_header_done ⟨v, q1, ofile, fs⟩ a status canR loc host := by
        simp [step, hf]
      have eb : step ⟨v, q2, ofile, fs⟩ b (Event.header_done status canR loc host) =
          example_header_done ⟨v, q2, ofile, fs⟩ b status canR loc host := by
        simp [step, hbf]
      rw [ea, eb]
      unfold example_header_done
      rw [h1]
      by_cases hc : (b.retries < 10 ∧ canR = true)
      · simp [hc, sameCore, h2, h3, h4, h5, h6]
      · by_cases hs : (status = 204 ∨ status = 200)
        · cases hop : open_output_file fs ofile loc true with
          | some s => simp [hc, hs, hop, sameCore, h2, h3, h4, h5, h6]
          | none => simp [hc, hs, hop, sameCore, request_done, h3, h4, h6]
        · simp [hc, hs, sameCore, request_done, h3, h4, h6]
    | data_read cs =>
      have ea : step ⟨v, q1, ofile, fs⟩ a (Event.data_read cs) =
          example_read_data a cs := by simp [step, hf]
      have eb : step ⟨v, q2, ofile, fs⟩ b (Event.data_read cs) =
          example_read_data b cs := by simp [step, hbf]
      rw [ea, eb]
      unfold example_read_data
      rw [← h2]
      cases a.output_fd <;> simp [sameCore, h1, h2, h3, h4, h5, h6]
    | data_eof =>
      simp [step, hf, hbf, example_eof, request_done, sameCore, h1, h3, h4, h6]
    | error c =>
      have ea : step ⟨v, q1, ofile, fs⟩ a (Event.error c) =
          handle_uclient_error ⟨v, q1, ofile, fs⟩ a c := by simp [step, hf]
      have eb : step ⟨v, q2, ofile, fs⟩ b (Event.error c) =
          handle_uclient_error ⟨v, q2, ofile, fs⟩ b c := by simp [step, hbf]
      rw [ea, eb]
      unfold handle_uclient_error
      cases c <;> cases v <;>
        simp [sameCore, request_done, h1, h2, h3, h4, h5, h6]

/-- A whole event sequence keeps two runs differing only in the quiet
flag in agreement on everything except the log. -/
theorem run_sameCore (v : Bool) (ofile : Option String) (fs : FS)
    (q1 q2 : Bool) (evs : List Event) :
    ∀ a b, sameCore a b →
      sameCore (run ⟨v, q1, ofile, fs⟩ a evs) (run ⟨v, q2, ofile, fs⟩ b evs) := by
  induction evs with
  | nil => intro a b h; exact h
  | cons e rest ih =>
    intro a b h
    exact ih _ _ (step_sameCore v ofile fs q1 q2 e a b h)

/-- Claim C9: the -q flag affects only diagnostic output.  For every
configuration and collaborator event sequence, the runs with and
without -q have the same exit status, the same bytes written to the
sink, and the same sink, redirect counter and terminal flag. -/
theorem quiet_noninterference (cfg : Config) (evs : List Event) :
    (runSession { cfg with quiet := true } evs).error_ret =
      (runSession { cfg with quiet := false } evs).error_ret ∧
    (runSession { cfg with quiet := true } evs).written =
      (runSession { cfg with quiet := false } evs).written ∧
    (runSession { cfg with quiet := true } evs).output_fd =
      (runSession { cfg with quiet := false } evs).output_fd ∧
    (runSession { cfg with quiet := true } evs).finished =
      (runSession { cfg with quiet := false } evs).finished ∧
    (runSession { cfg with quiet := true } evs).retries =
      (runSession { cfg with quiet := false } evs).retries := by
  obtain ⟨v, q, ofile, fs⟩ := cfg
  have h := run_sameCore v ofile fs true false evs initSt initSt
    ⟨rfl, rfl, rfl, rfl, rfl, rfl⟩
  exact ⟨h.2.2.1, h.2.2.2.2.2, h.2.1, h.2.2.2.2.1, h.1⟩

end Uclient

namespace Uclient

/-! ## Claim C2: the derived output filename -/

/-- Counterexample to claim C2: the URL paths /a/b/ and /a/b both derive
the filename b, not index.html (the default applies only when nothing
remains of the path), and a question mark is not stripped: it stays part
of the derived filename. -/
theorem derived_name_counterexample :
    derive_filename "/a/b/" = "b" ∧
    derive_filename "/a/b" = "b" ∧
    derive_filename "/a/b/" ≠ "index.html" ∧
    open_output_file demoFS none "/a/b/" true = some (Sink.file "b") ∧
    derive_filename "/x.csv?q=1" = "x.csv?q=1" := by
  refine ⟨by decide, by decide, by decide, by decide, by decide⟩

/-- Truncation stops at the first ';' or '&': everything at and after
such a character is ignored by the filename derivation. -/
theorem cutChunk_append_stop (l : List Char) (c : Char) (s : List Char)
    (hc : (c ≠ ';' && c ≠ '&') = false) :
    cutChunk (l ++ c :: s) = cutChunk l := by
  have hcc : c = ';' ∨ c = '&' := by
    by_cases hx1 : c = ';'
    · exact Or.inl hx1
    · by_cases hx2 : c = '&'
      · exact Or.inr hx2
      · simp [hx1, hx2] at hc
  induction l with
  | nil =>
    rcases hcc with hx | hx <;> simp [cutChunk, List.takeWhile_cons, hx]
  | cons x xs ih =>
    rw [List.cons_append]
    unfold cutChunk at ih ⊢
    rw [List.takeWhile_cons, List.takeWhile_cons]
    cases hx : (x ≠ ';' && x ≠ '&') with
    | false => rfl
    | true => rw [ih]

/-- Claim C2 (amended): with no explicit output path, the derived
filename is the last segment of the URL path once everything from the
first ';' or '&' on (the characters strcspn stops at; a '?' is kept)
and trailing slashes are removed, index.html standing in when nothing
remains (as for path "/"); the file is opened in exclusive-create mode,
so /a/b/report.csv resolves to report.csv — succeeding when no such
file exists and failing when one does — while /a/b/ and /a/b resolve to
b, not index.html. -/
theorem derived_name_resolution (fs : FS)
    (hio : fs.ioFail "report.csv" = false) :
    (fs.fexists "report.csv" = false →
      open_output_file fs none "/a/b/report.csv" true =
        some (Sink.file "report.csv")) ∧
    (fs.fexists "report.csv" = true →
      open_output_file fs none "/a/b/report.csv" true = none) ∧
    (∀ g : FS, g.ioFail "index.html" = false → g.fexists "index.html" = false →
      open_output_file g none "/" true = some (Sink.file "index.html")) ∧
    (∀ p : String, ∀ s : List Char,
      derive_filename (String.mk (p.data ++ ';' :: s)) = derive_filename p) ∧
    (∀ p : String, ∀ s : List Char,
      derive_filename (String.mk (p.data ++ '&' :: s)) = derive_filename p) ∧
    derive_filename "/a/b/" = "b" ∧ derive_filename "/a/b" = "b" := by
  have hname : derive_filename "/a/b/report.csv" = "report.csv" := by decide
  have hroot : derive_filename "/" = "index.html" := by decide
  refine ⟨?_, ?_, ?_, ?_, ?_, by decide, by decide⟩
  · intro hex
    simp [open_output_file, hname, sysOpen, hio, hex]
  · intro hex
    simp [open_output_file, hname, sysOpen, hio, hex]
  · intro g hgio hgex
    simp [open_output_file, hroot, sysOpen, hgio, hgex]
  · intro p s
    unfold derive_filename
    rw [show (String.mk (p.data ++ ';' :: s)).data = p.data ++ ';' :: s from rfl]
    rw [cutChunk_append_stop p.data ';' s (by decide)]
  · intro p s
    unfold derive_filename
    rw [show (String.mk (p.data ++ '&' :: s)).data = p.data ++ '&' :: s from rfl]
    rw [cutChunk_append_stop p.data '&' s (by decide)]

/-- Witness for the amended C2 on the demonstration file system, where
report.csv does not exist yet. -/
theorem derived_name_resolution_witness :
    demoFS.ioFail "report.csv" = false ∧
    ((demoFS.fexists "report.csv" = false →
        open_output_file demoFS none "/a/b/report.csv" true =
          some (Sink.file "report.csv")) ∧
      (demoFS.fexists "report.csv" = true →
        open_output_file demoFS none "/a/b/report.csv" true = none) ∧
      (∀ g : FS, g.ioFail "index.html" = false → g.fexists "index.html" = false →
        open_output_file g none "/" true = some (Sink.file "index.html")) ∧
      (∀ p : String, ∀ s : List Char,
        derive_filename (String.mk (p.data ++ ';' :: s)) = derive_filename p) ∧
      (∀ p : String, ∀ s : List Char,
        derive_filename (String.mk (p.data ++ '&' :: s)) = derive_filename p) ∧
      derive_filename "/a/b/" = "b" ∧ derive_filename "/a/b" = "b") :=
  ⟨by decide, derived_name_resolution demoFS (by decide)⟩

end Uclient
